import Mathlib

/-!
Verification development for the CraftLog session-telemetry engine.

The TypeScript source is shallowly embedded: each definition below is a
direct translation of a source function (file and line references are in
the doc comments).  JavaScript numbers that hold millisecond timestamps,
durations, line counts and byte counts are modelled as `Int`; counters
that only ever hold non-negative byte counts are modelled as `Nat`.
Asynchronous file-system and stream behaviour is modelled by explicit
state passing; the inputs that the environment supplies (the wall clock,
`fs.stat` results, the result of scanning the workspace, the stream's
back-pressure signal) are passed as explicit parameters.
-/

namespace CraftLog

/-- Control mode tag, `types.ts` line 199: `'human' | 'ai'`. -/
inductive ControlMode where
  | human
  | ai
deriving DecidableEq, Repr

/-- Mode change reason, `types.ts` line 202: `'manual' | 'ai_prompt'`. -/
inductive ModeChangeReason where
  | manual
  | ai_prompt
deriving DecidableEq, Repr

/-- Event kind tag, `types.ts` line 215. -/
inductive EventKind where
  | edit
  | ai_prompt
  | snapshot
  | note
  | session_start
  | session_end
  | session_pause
  | session_resume
  | file_create
  | file_delete
  | workspace_diff
  | mode_change
  | policy_violation
deriving DecidableEq, Repr

/-- In-memory session state, `types.ts` lines 395-405. -/
structure SessionState where
  sessionId : String
  workspaceId : String
  isLogging : Bool
  isPaused : Bool
  logFilePath : String
  startTime : Int
  totalPausedMs : Int
  lastPauseTime : Option Int
  controlMode : ControlMode
deriving DecidableEq, Repr

/-- Persisted resumable-session snapshot, `types.ts` lines 408-416.
`controlMode` is an `Option` because saved data written by an older
version of the extension may lack the field; `resumeSession` reads it
with `?? 'human'` (`part_000` line 872). -/
structure SavedSessionInfo where
  sessionId : String
  workspaceId : String
  logFilePath : String
  startTime : Int
  pausedAt : Int
  totalPausedMs : Int
  controlMode : Option ControlMode
deriving DecidableEq, Repr

/-- `calculateElapsedMs`, `part_000` lines 97-110: elapsed wall-clock time
since session start with paused time excluded, floored at zero, and `0`
when no session exists.  `now` stands for `Date.now()`. -/
def calculateElapsedMs (now : Int) (sessionState : Option SessionState) : Int :=
  match sessionState with
  | none => 0
  | some s =>
      let elapsed := now - s.startTime - s.totalPausedMs
      let elapsed :=
        match s.lastPauseTime with
        | some p => elapsed - (now - p)
        | none => elapsed
      max 0 elapsed

/-- Per-file statistics, `snapshotHandler.ts` lines 15-18. -/
structure SingleFileStats where
  loc : Int
  bytes : Int
deriving DecidableEq, Repr

/-- Result of one `workspace_diff` computation (the payload fields of the
`WorkspaceDiffEvent`, `types.ts` lines 339-349). -/
structure DiffResult where
  addedPaths : List String
  removedPaths : List String
  addedLoc : Int
  removedLoc : Int
  addedBytes : Int
  removedBytes : Int
deriving DecidableEq, Repr

/-- Aggregate workspace statistics, `snapshotHandler.ts` lines 21-26. -/
structure WorkspaceStats where
  files : Int
  loc : Int
  bytes : Int
  fileMap : List (String × SingleFileStats)
deriving DecidableEq, Repr

/-- One record handed to `LogWriter.write`.  Header fields are exactly the
ones every construction site sets; `elapsed_ms` is an `Option` because
several construction sites omit the field from the object literal
(`part_001` lines 86-97 and 417-426, `types.ts` lines 518-526 and
570-578): `none` means the serialized JSON object has no `elapsed_ms`
member.  Payload fields not applicable to a kind are `none`. -/
structure LogRecord where
  ts : Int
  elapsed_ms : Option Int
  session_id : String
  workspace_id : String
  event : EventKind
  fromMode : Option ControlMode := none
  toMode : Option ControlMode := none
  reason : Option ModeChangeReason := none
  violationKind : Option String := none
  control_mode : Option ControlMode := none
  detail : Option String := none
  origin_mode : Option ControlMode := none
  promptLength : Option Nat := none
  promptStored : Option Bool := none
  noteText : Option String := none
  diff : Option DiffResult := none
  filesCount : Option Int := none
  totalLoc : Option Int := none
  totalBytes : Option Int := none
deriving DecidableEq, Repr

/-- The `mode_change` record built by `setControlMode`, `part_000`
lines 137-147.  It carries `elapsed_ms` computed from the current state. -/
def mkModeChangeEvent (now : Int) (st : SessionState)
    (fromM toM : ControlMode) (reason : ModeChangeReason) : LogRecord :=
  { ts := now
    elapsed_ms := some (calculateElapsedMs now (some st))
    session_id := st.sessionId
    workspace_id := st.workspaceId
    event := EventKind.mode_change
    fromMode := some fromM
    toMode := some toM
    reason := some reason }

/-- The `policy_violation` record built by `logPolicyViolation`,
`part_000` lines 170-180. -/
def mkPolicyViolationEvent (now : Int) (st : SessionState)
    (kind detail : String) : LogRecord :=
  { ts := now
    elapsed_ms := some (calculateElapsedMs now (some st))
    session_id := st.sessionId
    workspace_id := st.workspaceId
    event := EventKind.policy_violation
    violationKind := some kind
    control_mode := some st.controlMode
    detail := some detail }

/-- The `edit` record built by `EditTracker.handleDocumentChange`,
`part_001` lines 86-97.  The object literal there sets `ts`,
`session_id`, `workspace_id`, `event`, `vscode_version`, `file`,
`delta`, `flags`, `cursor` and `change_count` and nothing else: in
particular it sets no `elapsed_ms` and no `origin_mode`. -/
def mkEditEvent (now : Int) (st : SessionState) : LogRecord :=
  { ts := now
    elapsed_ms := none
    session_id := st.sessionId
    workspace_id := st.workspaceId
    event := EventKind.edit
    origin_mode := none }

/-- The `ai_prompt` record built by `AIPromptHandler.logPrompt`,
`part_001` lines 417-426.  The object literal sets `ts`, `session_id`,
`workspace_id`, `event`, `vscode_version`, `prompt`, `mode`, `note` and
no `elapsed_ms`. -/
def mkAIPromptEvent (now : Int) (st : SessionState)
    (storePromptText : Bool) (promptText : String) : LogRecord :=
  { ts := now
    elapsed_ms := none
    session_id := st.sessionId
    workspace_id := st.workspaceId
    event := EventKind.ai_prompt
    promptLength := some promptText.length
    promptStored := some (storePromptText && promptText.length > 0) }

/-- The `file_create` record built by `FileWatcher.handleCreate`,
`types.ts` lines 518-526: no `elapsed_ms` is set. -/
def mkFileCreateEvent (now : Int) (st : SessionState) : LogRecord :=
  { ts := now
    elapsed_ms := none
    session_id := st.sessionId
    workspace_id := st.workspaceId
    event := EventKind.file_create }

/-- The `file_delete` record built by `FileWatcher.handleDelete`,
`types.ts` lines 570-578: no `elapsed_ms` is set. -/
def mkFileDeleteEvent (now : Int) (st : SessionState) : LogRecord :=
  { ts := now
    elapsed_ms := none
    session_id := st.sessionId
    workspace_id := st.workspaceId
    event := EventKind.file_delete }

/-- The `snapshot` record built by `SnapshotHandler.takeSnapshot`,
`snapshotHandler.ts` lines 93-106 (it does set `elapsed_ms`). -/
def mkSnapshotEvent (now : Int) (st : SessionState)
    (ws : WorkspaceStats) : LogRecord :=
  { ts := now
    elapsed_ms := some (calculateElapsedMs now (some st))
    session_id := st.sessionId
    workspace_id := st.workspaceId
    event := EventKind.snapshot
    filesCount := some ws.files
    totalLoc := some ws.loc
    totalBytes := some ws.bytes }

/-- The `workspace_diff` record built by
`SnapshotHandler.emitWorkspaceDiff`, `snapshotHandler.ts`
lines 174-189 (it does set `elapsed_ms`). -/
def mkWorkspaceDiffEvent (now : Int) (st : SessionState)
    (d : DiffResult) : LogRecord :=
  { ts := now
    elapsed_ms := some (calculateElapsedMs now (some st))
    session_id := st.sessionId
    workspace_id := st.workspaceId
    event := EventKind.workspace_diff
    diff := some d }

/-- The `session_pause` record, `part_000` lines 776-783.  It is built
before `sessionState.lastPauseTime` is assigned, so `elapsed_ms` is
computed on the pre-pause state. -/
def mkSessionPauseEvent (now : Int) (st : SessionState) : LogRecord :=
  { ts := now
    elapsed_ms := some (calculateElapsedMs now (some st))
    session_id := st.sessionId
    workspace_id := st.workspaceId
    event := EventKind.session_pause }

/-- The `session_resume` record, `part_000` lines 879-887, built from the
freshly restored state. -/
def mkSessionResumeEvent (now : Int) (st : SessionState) : LogRecord :=
  { ts := now
    elapsed_ms := some (calculateElapsedMs now (some st))
    session_id := st.sessionId
    workspace_id := st.workspaceId
    event := EventKind.session_resume }

/-- The module-level mutable state of `extension.ts` (`part_000`
lines 38-43) that the claims touch: the current session, whether
`logWriter` is non-null, the persisted saved-session record
(`workspaceState` key `craftlog.savedSession`), and the sequence of
records handed to `logWriter.write` so far, in call order. -/
structure Glob where
  session : Option SessionState
  writer : Bool
  saved : Option SavedSessionInfo
  log : List LogRecord
deriving Repr

/-- `setControlMode`, `part_000` lines 124-160: returns unchanged state
when there is no session or no writer; no-op when the new mode equals
the current one; otherwise first writes a `mode_change` record (built
from the old mode) and then updates `controlMode`. -/
def setControlMode (g : Glob) (newMode : ControlMode)
    (reason : ModeChangeReason) (now : Int) : Glob :=
  match g.session, g.writer with
  | some st, true =>
      if st.controlMode = newMode then g
      else
        { g with
          log := g.log ++ [mkModeChangeEvent now st st.controlMode newMode reason]
          session := some { st with controlMode := newMode } }
  | _, _ => g

/-- `logPolicyViolation`, `part_000` lines 165-182: writes one
`policy_violation` record and changes no state. -/
def logPolicyViolation (g : Glob) (kind detail : String) (now : Int) : Glob :=
  match g.session, g.writer with
  | some st, true =>
      { g with log := g.log ++ [mkPolicyViolationEvent now st kind detail] }
  | _, _ => g

/-- `AIPromptHandler.logPrompt`, `part_001` lines 401-429: builds the
prompt info and writes exactly one `ai_prompt` record.  The handler
holds a non-null `logWriter` by construction, and the function neither
reads nor writes `controlMode` and calls neither `logPolicyViolation`
nor `setControlMode`. -/
def logPrompt (g : Glob) (storePromptText : Bool) (promptText : String)
    (now : Int) : Glob :=
  match g.session with
  | some st =>
      { g with log := g.log ++ [mkAIPromptEvent now st storePromptText promptText] }
  | none => g

/-- `pauseSession`, `part_000` lines 762-830: requires a logging,
not-yet-paused session; writes `session_pause` (when the writer is
present), records `lastPauseTime`, persists the `SavedSessionInfo`
(with the pre-pause `totalPausedMs` and the current `controlMode`),
flips the status flags and disposes the writer. -/
def pauseSession (g : Glob) (now : Int) : Glob :=
  match g.session with
  | none => g
  | some st =>
      if !st.isLogging then g
      else if st.isPaused then g
      else
        let logAfter :=
          if g.writer then g.log ++ [mkSessionPauseEvent now st] else g.log
        let savedInfo : SavedSessionInfo :=
          { sessionId := st.sessionId
            workspaceId := st.workspaceId
            logFilePath := st.logFilePath
            startTime := st.startTime
            pausedAt := now
            totalPausedMs := st.totalPausedMs
            controlMode := some st.controlMode }
        { session := some { st with
            lastPauseTime := some now
            isLogging := false
            isPaused := true }
          writer := false
          saved := some savedInfo
          log := logAfter }

/-- The session state rebuilt by `resumeSession`, `part_000`
lines 857-873: identity, log path and start time come from the saved
snapshot, `totalPausedMs` grows by the paused duration, and the control
mode is the saved one, defaulting to `human` when absent. -/
def restoredSession (savedInfo : SavedSessionInfo) (resumeTime : Int) :
    SessionState :=
  let pausedDuration := resumeTime - savedInfo.pausedAt
  { sessionId := savedInfo.sessionId
    workspaceId := savedInfo.workspaceId
    isLogging := true
    isPaused := false
    logFilePath := savedInfo.logFilePath
    startTime := savedInfo.startTime
    totalPausedMs := savedInfo.totalPausedMs + pausedDuration
    lastPauseTime := none
    controlMode := savedInfo.controlMode.getD ControlMode.human }

/-- `resumeSession`, `part_000` lines 835-918: requires a saved snapshot
and no active (logging) session; adds `now - pausedAt` to
`totalPausedMs`, restores identity, log path, start time and control
mode (defaulting to `human` when the saved record lacks it), recreates
the writer against the original path, writes `session_resume` and
clears the saved snapshot. -/
def resumeSession (g : Glob) (now : Int) : Glob :=
  match g.saved with
  | none => g
  | some savedInfo =>
      if (g.session.map (fun s => s.isLogging)).getD false then g
      else
        let st := restoredSession savedInfo now
        { session := some st
          writer := true
          saved := none
          log := g.log ++ [mkSessionResumeEvent now st] }

/-- Configuration, `types.ts` lines 384-392. -/
structure CraftLogConfig where
  storePromptText : Bool
  logDirectory : String
  snapshotIntervalMs : Int
  pasteLikeThreshold : Int
  excludePatterns : List String
  targetExtensions : List String
  maxFileSizeMB : Nat
deriving DecidableEq, Repr

/-- Characters of the part of a path after its last slash (the basename),
computed by scanning left to right and restarting at each `/`.  Models
the basename step inside Node's `path.extname`. -/
def basenameChars (cs : List Char) : List Char :=
  cs.foldl (fun acc c => if c = '/' then [] else acc.concat c) []

/-- Model of Node's `path.extname` for ordinary file names: the suffix of
the basename starting at its last dot, or `""` when the basename has no
dot or only a leading dot. -/
def extname (p : String) : String :=
  let base := basenameChars p.toList
  let after := base.reverse.takeWhile (fun c => c ≠ '.')
  if after.length + 1 < base.length then
    String.mk ('.' :: after.reverse)
  else
    ""

/-- JavaScript `s.slice(0, -n)` as used in `rotateIfNeeded`
(`types.ts` line 823): drops the last `n` characters, except that for
`n = 0` the argument is `-0 = 0`, so the result is the empty string. -/
def jsSliceMinus (s : String) (n : Nat) : String :=
  if n = 0 then ""
  else String.mk (s.toList.take (s.toList.length - n))

/-- The rotated file name computed in `LogWriter.rotateIfNeeded`,
`types.ts` lines 822-824: take the extension of the original base path,
strip it, append `_<fileIndex>` and the extension. -/
def rotatedLogPath (baseLogPath : String) (fileIndex : Nat) : String :=
  let ext := extname baseLogPath
  let base := jsSliceMinus baseLogPath ext.toList.length
  base ++ "_" ++ toString fileIndex ++ ext

/-- The string tag of each event kind as it appears in the source string
literals, `types.ts` line 215. -/
def EventKind.tag : EventKind → String
  | EventKind.edit => "edit"
  | EventKind.ai_prompt => "ai_prompt"
  | EventKind.snapshot => "snapshot"
  | EventKind.note => "note"
  | EventKind.session_start => "session_start"
  | EventKind.session_end => "session_end"
  | EventKind.session_pause => "session_pause"
  | EventKind.session_resume => "session_resume"
  | EventKind.file_create => "file_create"
  | EventKind.file_delete => "file_delete"
  | EventKind.workspace_diff => "workspace_diff"
  | EventKind.mode_change => "mode_change"
  | EventKind.policy_violation => "policy_violation"

/-- Serialization of a record: `JSON.stringify(event)` restricted to the
modelled fields, `types.ts` line 841.  Only present (`some`) fields
appear in the object, mirroring the construction sites. -/
def recordToJson (r : LogRecord) : String :=
  let q := fun (s : String) => "\"" ++ s ++ "\""
  let optInt := fun (name : String) (v : Option Int) =>
    match v with
    | some n => "," ++ q name ++ ":" ++ toString n
    | none => ""
  "\x7b" ++ q "ts" ++ ":" ++ toString r.ts
    ++ optInt "elapsed_ms" r.elapsed_ms
    ++ "," ++ q "session_id" ++ ":" ++ q r.session_id
    ++ "," ++ q "workspace_id" ++ ":" ++ q r.workspace_id
    ++ "," ++ q "event" ++ ":" ++ q r.event.tag
    ++ "\x7d"

/-- The serialized line appended for one record: the JSON object plus a
newline, `types.ts` line 841. -/
def serializeLine (r : LogRecord) : String :=
  recordToJson r ++ "\n"

/-- State of a `LogWriter`, `types.ts` lines 720-730, together with a
model of the data appended to disk: `disk` lists, in order, every
`(fileName, line)` append the writer performed.  Each entry is one
whole serialized record appended to one file. -/
structure WriterState where
  logFilePath : String
  baseLogPath : String
  currentFileSize : Nat
  fileIndex : Nat
  disk : List (String × String)
deriving DecidableEq, Repr

/-- `LogWriter.updateCurrentFileSize`, `types.ts` lines 748-759: the
counter becomes the existing file's size; a missing file or a failing
`stat` yields `0`.  `fsSize = some n` models `existsSync` true and
`statSync` succeeding with size `n`; `none` models a missing file or a
thrown `stat` error. -/
def updateCurrentFileSize (fsSize : Option Nat) : Nat :=
  match fsSize with
  | some n => n
  | none => 0

/-- `LogWriter` constructor, `types.ts` lines 732-739: remembers the base
path, initializes the byte counter from the existing file via
`updateCurrentFileSize`, and opens the stream in append mode. -/
def mkWriterState (logFilePath : String) (fsSize : Option Nat) : WriterState :=
  { logFilePath := logFilePath
    baseLogPath := logFilePath
    currentFileSize := updateCurrentFileSize fsSize
    fileIndex := 0
    disk := [] }

/-- `LogWriter.rotateIfNeeded`, `types.ts` lines 817-828: when the byte
counter has reached `maxFileSizeMB * 1024 * 1024`, close the stream,
bump the index, derive the next file name from the base path, reset the
counter and reopen. -/
def rotateIfNeeded (cfg : CraftLogConfig) (s : WriterState) : WriterState :=
  let maxBytes := cfg.maxFileSizeMB * 1024 * 1024
  if s.currentFileSize ≥ maxBytes then
    let newIndex := s.fileIndex + 1
    { s with
      fileIndex := newIndex
      logFilePath := rotatedLogPath s.baseLogPath newIndex
      currentFileSize := 0 }
  else s

/-- `LogWriter.write`, `types.ts` lines 834-865 (the synchronous file
bookkeeping): first `rotateIfNeeded`, then append the whole serialized
line to the (possibly new) current file in one stream write, then add
its byte length to the counter. -/
def writeRecord (cfg : CraftLogConfig) (s : WriterState) (e : LogRecord) :
    WriterState :=
  let s := rotateIfNeeded cfg s
  let line := serializeLine e
  let bytesToWrite := line.utf8ByteSize
  { s with
    disk := s.disk ++ [(s.logFilePath, line)]
    currentFileSize := s.currentFileSize + bytesToWrite }

/-- Folding `writeRecord` over a sequence of events. -/
def writeAll (cfg : CraftLogConfig) (s : WriterState) (es : List LogRecord) :
    WriterState :=
  es.foldl (writeRecord cfg) s

/-- The asynchronous bookkeeping of `LogWriter`, `types.ts`
lines 727-730 and 834-905: the in-flight write count `pendingWrites`,
whether a drain promise is outstanding (`drainPromise != null`), and
counters of accepted calls to `write` and of completion callbacks that
have fired, split by whether the callback received an error. -/
structure AsyncWriterState where
  pendingWrites : Int
  drainPending : Bool
  acceptedCount : Nat
  completedOk : Nat
  completedErr : Nat
deriving DecidableEq, Repr

/-- Initial asynchronous state of a fresh `LogWriter`. -/
def initAsyncWriter : AsyncWriterState :=
  { pendingWrites := 0
    drainPending := false
    acceptedCount := 0
    completedOk := 0
    completedErr := 0 }

/-- The synchronous part of one `write` call, `types.ts` lines 844-864:
the event is always accepted, `pendingWrites` is incremented before the
stream write, and when `stream.write` returns `false` (`canContinue`)
and no drain promise exists yet, a drain-pending condition is recorded.
The function is total: `write` has no throwing path, stream errors are
delivered to the completion callback instead. -/
def asyncWrite (s : AsyncWriterState) (canContinue : Bool) : AsyncWriterState :=
  { s with
    pendingWrites := s.pendingWrites + 1
    acceptedCount := s.acceptedCount + 1
    drainPending := s.drainPending || !canContinue }

/-- The completion callback passed to `stream.write`, `types.ts`
lines 845-855: it decrements `pendingWrites` first, before looking at
`err`, so a failed append is still counted as completed; the error is
only logged. -/
def writeCallback (s : AsyncWriterState) (err : Bool) : AsyncWriterState :=
  { s with
    pendingWrites := s.pendingWrites - 1
    completedOk := if err then s.completedOk else s.completedOk + 1
    completedErr := if err then s.completedErr + 1 else s.completedErr }

/-- The stream's `drain` listener, `types.ts` lines 777-783: resolves and
clears the drain promise. -/
def drainFired (s : AsyncWriterState) : AsyncWriterState :=
  { s with drainPending := false }

/-- States of the writer's asynchronous bookkeeping reachable from a
fresh writer.  A completion callback fires only while writes are in
flight (Node invokes exactly one callback per accepted write). -/
inductive WriterReachable : AsyncWriterState → Prop where
  | init : WriterReachable initAsyncWriter
  | write (s : AsyncWriterState) (canContinue : Bool) :
      WriterReachable s → WriterReachable (asyncWrite s canContinue)
  | callback (s : AsyncWriterState) (err : Bool) :
      WriterReachable s → 0 < s.pendingWrites →
      WriterReachable (writeCallback s err)
  | drain (s : AsyncWriterState) :
      WriterReachable s → WriterReachable (drainFired s)

/-- The condition under which `forceFlush`, `types.ts` lines 870-889,
returns: the drain promise (if any) has resolved and the pending
resolvers have been called, which happens exactly when `pendingWrites`
reaches `0` (`types.ts` lines 851-854). -/
def flushCanReturn (s : AsyncWriterState) : Prop :=
  s.drainPending = false ∧ s.pendingWrites = 0

instance (s : AsyncWriterState) : Decidable (flushCanReturn s) := by
  unfold flushCanReturn
  infer_instance

/-- `LogWriter.dispose`, `types.ts` lines 901-904, closes the stream only
after `await this.forceFlush()` has returned. -/
def disposeClosesAt (s : AsyncWriterState) : Prop :=
  flushCanReturn s

/-- Cached workspace statistics, `snapshotHandler.ts` lines 29-32. -/
structure CachedStats where
  stats : WorkspaceStats
  timestamp : Int
deriving DecidableEq, Repr

/-- The mutable state of a `SnapshotHandler`, `snapshotHandler.ts`
lines 40-44: the stats cache, its validity window (5000 ms) and the
previous per-file map retained for diffing. -/
structure SnapshotHandlerState where
  statsCache : Option CachedStats
  cacheValidityMs : Int
  previousWorkspaceFiles : List (String × SingleFileStats)
deriving DecidableEq, Repr

/-- A fresh `SnapshotHandler`: no cache, 5 s validity window, empty
previous map (`snapshotHandler.ts` lines 40-44). -/
def initSnapshotHandler : SnapshotHandlerState :=
  { statsCache := none
    cacheValidityMs := 5000
    previousWorkspaceFiles := [] }

/-- JavaScript `Map.has`, on the insertion-ordered association list that
models a `Map<string, SingleFileStats>`. -/
def mapHas (m : List (String × SingleFileStats)) (p : String) : Bool :=
  m.any (fun kv => kv.1 = p)

/-- JavaScript `Map.get`: the value stored for `p`, if any.  A JS map
never holds duplicate keys, so on maps built by the handler the first
match is the only one. -/
def mapGet? (m : List (String × SingleFileStats)) (p : String) :
    Option SingleFileStats :=
  (m.find? (fun kv => kv.1 = p)).map (fun kv => kv.2)

/-- The empty diff accumulator, `snapshotHandler.ts` lines 129-134. -/
def emptyDiff : DiffResult :=
  { addedPaths := []
    removedPaths := []
    addedLoc := 0
    removedLoc := 0
    addedBytes := 0
    removedBytes := 0 }

/-- One iteration of the first loop of `emitWorkspaceDiff`,
`snapshotHandler.ts` lines 137-160: a path absent from the previous map
contributes its full `loc`/`bytes` and its path; a path present in both
contributes its positive delta to the added totals and the absolute
value of its negative delta to the removed totals. -/
def diffAddStep (prev : List (String × SingleFileStats)) (acc : DiffResult)
    (kv : String × SingleFileStats) : DiffResult :=
  match mapGet? prev kv.1 with
  | none =>
      { acc with
        addedPaths := acc.addedPaths ++ [kv.1]
        addedLoc := acc.addedLoc + kv.2.loc
        addedBytes := acc.addedBytes + kv.2.bytes }
  | some prevStats =>
      let locDiff := kv.2.loc - prevStats.loc
      let bytesDiff := kv.2.bytes - prevStats.bytes
      let acc :=
        if locDiff > 0 then { acc with addedLoc := acc.addedLoc + locDiff }
        else if locDiff < 0 then
          { acc with removedLoc := acc.removedLoc + |locDiff| }
        else acc
      if bytesDiff > 0 then { acc with addedBytes := acc.addedBytes + bytesDiff }
      else if bytesDiff < 0 then
        { acc with removedBytes := acc.removedBytes + |bytesDiff| }
      else acc

/-- One iteration of the second loop of `emitWorkspaceDiff`,
`snapshotHandler.ts` lines 163-169: a path absent from the current map
contributes its full `loc`/`bytes` to the removed totals. -/
def diffRemoveStep (cur : List (String × SingleFileStats)) (acc : DiffResult)
    (kv : String × SingleFileStats) : DiffResult :=
  if mapHas cur kv.1 then acc
  else
    { acc with
      removedPaths := acc.removedPaths ++ [kv.1]
      removedLoc := acc.removedLoc + kv.2.loc
      removedBytes := acc.removedBytes + kv.2.bytes }

/-- The diff computed by `emitWorkspaceDiff`, `snapshotHandler.ts`
lines 129-169: the first loop over the current map followed by the
second loop over the previous map. -/
def computeDiff (prev cur : List (String × SingleFileStats)) : DiffResult :=
  prev.foldl (diffRemoveStep cur) (cur.foldl (diffAddStep prev) emptyDiff)

/-- The emission guard of `emitWorkspaceDiff`, `snapshotHandler.ts`
lines 172-173: at least one of the six aggregate/path-count fields is
positive. -/
def shouldEmitDiff (d : DiffResult) : Bool :=
  decide (0 < d.addedPaths.length) || decide (0 < d.removedPaths.length) ||
  decide (0 < d.addedLoc) || decide (0 < d.removedLoc) ||
  decide (0 < d.addedBytes) || decide (0 < d.removedBytes)

/-- `SnapshotHandler.emitWorkspaceDiff`, `snapshotHandler.ts`
lines 123-193: skipped entirely while the previous map is empty
(`size === 0`); otherwise the diff is computed and a `workspace_diff`
record is written only when the guard holds.  Returns the diff emitted,
if any. -/
def emitWorkspaceDiff (prev cur : List (String × SingleFileStats)) :
    Option DiffResult :=
  if prev.length = 0 then none
  else
    let d := computeDiff prev cur
    if shouldEmitDiff d then some d else none

/-- `SnapshotHandler.collectWorkspaceStatsWithFileMap`,
`snapshotHandler.ts` lines 198-213: reuse the cache while it is younger
than the validity window, otherwise recompute (the recomputation result
is the `scan` parameter, standing for `calculateStatsWithFileMap`) and
cache it with the current timestamp. -/
def collectWorkspaceStatsWithFileMap (now : Int) (scan : WorkspaceStats)
    (h : SnapshotHandlerState) : WorkspaceStats × SnapshotHandlerState :=
  match h.statsCache with
  | some c =>
      if now - c.timestamp < h.cacheValidityMs then (c.stats, h)
      else (scan, { h with statsCache := some { stats := scan, timestamp := now } })
  | none =>
      (scan, { h with statsCache := some { stats := scan, timestamp := now } })

/-- `SnapshotHandler.takeSnapshot`, `snapshotHandler.ts` lines 83-118:
returns unchanged with no records while not logging; otherwise collects
stats (possibly from cache), writes one `snapshot` record, computes and
possibly writes a `workspace_diff` record, and then unconditionally
replaces the previous map with the current one. -/
def takeSnapshot (st : SessionState) (now : Int) (scan : WorkspaceStats)
    (h : SnapshotHandlerState) : SnapshotHandlerState × List LogRecord :=
  if !st.isLogging then (h, [])
  else
    let collected := collectWorkspaceStatsWithFileMap now scan h
    let ws := collected.1
    let h1 := collected.2
    let snapshotEvent := mkSnapshotEvent now st ws
    let diffEvents :=
      match emitWorkspaceDiff h1.previousWorkspaceFiles ws.fileMap with
      | some d => [mkWorkspaceDiffEvent now st d]
      | none => []
    ({ h1 with previousWorkspaceFiles := ws.fileMap },
     [snapshotEvent] ++ diffEvents)

/-! ## Theorems -/

/-- C1: `calculateElapsedMs()` returns
`max(0, now - startTime - totalPausedMs - (now - lastPauseTime if
lastPauseTime is non-null else 0))`; it returns `0` when no session
exists; it is monotonically non-decreasing while active
(`lastPauseTime = none`), frozen while paused, and a pause at `tp`
followed by a resume at `tr` (a pause of duration `tr - tp`) leaves the
elapsed time exactly where it stood at `tp`, so the pause does not
advance it. -/
theorem elapsedMs_spec (now now1 now2 tp tr p : Int) (s sp : SessionState)
    (g : Glob) (hg : g.session = some s) (hlog : s.isLogging = true)
    (hp : s.isPaused = false) (hnp : s.lastPauseTime = none)
    (hsp : sp.lastPauseTime = some p) (h12 : now1 ≤ now2) :
    (calculateElapsedMs now (some s) =
        max 0 (now - s.startTime - s.totalPausedMs - 0))
    ∧ (calculateElapsedMs now (some sp) =
        max 0 (now - sp.startTime - sp.totalPausedMs - (now - p)))
    ∧ calculateElapsedMs now none = 0
    ∧ calculateElapsedMs now1 (some s) ≤ calculateElapsedMs now2 (some s)
    ∧ calculateElapsedMs now1 (some sp) = calculateElapsedMs now2 (some sp)
    ∧ (resumeSession (pauseSession g tp) tr).session.map
         (fun st => calculateElapsedMs tr (some st)) =
       some (calculateElapsedMs tp (some s)) := by
  have hform : ∀ m : Int, calculateElapsedMs m (some s) =
      max 0 (m - s.startTime - s.totalPausedMs) := by
    intro m
    simp [calculateElapsedMs, hnp]
  have hformp : ∀ m : Int, calculateElapsedMs m (some sp) =
      max 0 (p - sp.startTime - sp.totalPausedMs) := by
    intro m
    simp only [calculateElapsedMs, hsp]
    congr 1
    ring
  refine ⟨?_, ?_, rfl, ?_, ?_, ?_⟩
  · rw [hform]
    congr 1
    ring
  · simp [calculateElapsedMs, hsp]
  · rw [hform, hform]
    exact max_le_max le_rfl (by omega)
  · rw [hformp, hformp]
  · have hpause : pauseSession g tp =
        Glob.mk
          (some { s with
            lastPauseTime := some tp
            isLogging := false
            isPaused := true })
          false
          (some (SavedSessionInfo.mk s.sessionId s.workspaceId s.logFilePath
            s.startTime tp s.totalPausedMs (some s.controlMode)))
          (if g.writer then g.log ++ [mkSessionPauseEvent tp s] else g.log) := by
      simp [pauseSession, hg, hlog, hp]
    rw [hpause]
    simp only [resumeSession, Option.map_some, Option.getD_some,
      Option.some.injEq]
    rw [if_neg (by simp)]
    simp [calculateElapsedMs, restoredSession, hnp]
    omega

/-- C1 witness: the concrete hypotheses hold and the theorem applies at a
concrete session and global state. -/
theorem elapsedMs_spec_witness :
    let s : SessionState :=
      { sessionId := "S_a", workspaceId := "W_a", isLogging := true
        isPaused := false, logFilePath := "a.jsonl", startTime := 100
        totalPausedMs := 10, lastPauseTime := none
        controlMode := ControlMode.human }
    let sp : SessionState :=
      { sessionId := "S_b", workspaceId := "W_b", isLogging := false
        isPaused := true, logFilePath := "b.jsonl", startTime := 100
        totalPausedMs := 0, lastPauseTime := some 150
        controlMode := ControlMode.human }
    let g : Glob := { session := some s, writer := true, saved := none, log := [] }
    (calculateElapsedMs 200 (some s) =
        max 0 (200 - s.startTime - s.totalPausedMs - 0))
    ∧ (calculateElapsedMs 200 (some sp) =
        max 0 (200 - sp.startTime - sp.totalPausedMs - (200 - 150)))
    ∧ calculateElapsedMs 200 none = 0
    ∧ calculateElapsedMs 150 (some s) ≤ calculateElapsedMs 160 (some s)
    ∧ calculateElapsedMs 150 (some sp) = calculateElapsedMs 160 (some sp)
    ∧ (resumeSession (pauseSession g 300) 400).session.map
         (fun st => calculateElapsedMs 400 (some st)) =
       some (calculateElapsedMs 300 (some s)) :=
  elapsedMs_spec 200 150 160 300 400 150 _ _ _ rfl rfl rfl rfl rfl (by decide)

/-- C5: with a saved snapshot and no active session, `resume()` restores
`session_id`, `workspace_id`, log file path and `start_time` from the
snapshot, adds `now - pausedAt` to `total_paused_ms`, restores
`control_mode` (defaulting to `human` when the snapshot lacks it),
writes a `session_resume` record, clears the persisted snapshot, and a
pause followed by a resume preserves `session_id`, `workspace_id` and
`control_mode`. -/
theorem resumeSession_spec (g g2 : Glob) (si : SavedSessionInfo)
    (st : SessionState) (now tp tr : Int)
    (hs : g.saved = some si)
    (hna : (g.session.map (fun s => s.isLogging)).getD false = false)
    (hg2 : g2.session = some st) (hl2 : st.isLogging = true)
    (hp2 : st.isPaused = false) :
    (resumeSession g now).session = some (restoredSession si now)
    ∧ (restoredSession si now).sessionId = si.sessionId
    ∧ (restoredSession si now).workspaceId = si.workspaceId
    ∧ (restoredSession si now).logFilePath = si.logFilePath
    ∧ (restoredSession si now).startTime = si.startTime
    ∧ (restoredSession si now).totalPausedMs =
        si.totalPausedMs + (now - si.pausedAt)
    ∧ (restoredSession si now).controlMode = si.controlMode.getD ControlMode.human
    ∧ (resumeSession g now).saved = none
    ∧ (resumeSession g now).log =
        g.log ++ [mkSessionResumeEvent now (restoredSession si now)]
    ∧ (mkSessionResumeEvent now (restoredSession si now)).event =
        EventKind.session_resume
    ∧ (resumeSession (pauseSession g2 tp) tr).session.map
        (fun s => (s.sessionId, s.workspaceId, s.controlMode)) =
      some (st.sessionId, st.workspaceId, st.controlMode) := by
  refine ⟨?_, rfl, rfl, rfl, rfl, by simp [restoredSession], rfl,
    ?_, ?_, rfl, ?_⟩
  · simp [resumeSession, hs, hna]
  · simp [resumeSession, hs, hna]
  · simp [resumeSession, hs, hna]
  · have hpause : pauseSession g2 tp =
        Glob.mk
          (some { st with
            lastPauseTime := some tp
            isLogging := false
            isPaused := true })
          false
          (some (SavedSessionInfo.mk st.sessionId st.workspaceId st.logFilePath
            st.startTime tp st.totalPausedMs (some st.controlMode)))
          (if g2.writer then g2.log ++ [mkSessionPauseEvent tp st] else g2.log) := by
      simp [pauseSession, hg2, hl2, hp2]
    rw [hpause]
    simp only [resumeSession]
    rw [if_neg (by simp)]
    simp [restoredSession]

/-- C5 witness: the theorem applied at a concrete saved snapshot (one
with no saved control mode, exercising the `human` default) and a
concrete active session. -/
theorem resumeSession_spec_witness :
    let si : SavedSessionInfo :=
      { sessionId := "S_x", workspaceId := "W_x", logFilePath := "x.jsonl"
        startTime := 50, pausedAt := 120, totalPausedMs := 7
        controlMode := none }
    let g : Glob := { session := none, writer := false, saved := some si, log := [] }
    let st : SessionState :=
      { sessionId := "S_y", workspaceId := "W_y", isLogging := true
        isPaused := false, logFilePath := "y.jsonl", startTime := 10
        totalPausedMs := 0, lastPauseTime := none
        controlMode := ControlMode.ai }
    let g2 : Glob := { session := some st, writer := true, saved := none, log := [] }
    (resumeSession g 200).session = some (restoredSession si 200)
    ∧ (restoredSession si 200).sessionId = si.sessionId
    ∧ (restoredSession si 200).workspaceId = si.workspaceId
    ∧ (restoredSession si 200).logFilePath = si.logFilePath
    ∧ (restoredSession si 200).startTime = si.startTime
    ∧ (restoredSession si 200).totalPausedMs =
        si.totalPausedMs + (200 - si.pausedAt)
    ∧ (restoredSession si 200).controlMode = si.controlMode.getD ControlMode.human
    ∧ (resumeSession g 200).saved = none
    ∧ (resumeSession g 200).log =
        [] ++ [mkSessionResumeEvent 200 (restoredSession si 200)]
    ∧ (mkSessionResumeEvent 200 (restoredSession si 200)).event =
        EventKind.session_resume
    ∧ (resumeSession (pauseSession g2 300) 400).session.map
        (fun s => (s.sessionId, s.workspaceId, s.controlMode)) =
      some (st.sessionId, st.workspaceId, st.controlMode) :=
  resumeSession_spec _ _ _ _ 200 300 400 rfl rfl rfl rfl rfl

/-- C7: for an active session, `setControlMode` is a no-op when the new
mode equals the current one; otherwise it first writes a `mode_change`
record carrying the old mode, the new mode and the reason, and then
updates `controlMode`; and none of the other modelled operations
(`logPolicyViolation`, `logPrompt`, `pauseSession`) changes
`controlMode`. -/
theorem setControlMode_spec (g : Glob) (st : SessionState)
    (newMode : ControlMode) (reason : ModeChangeReason) (now tp : Int)
    (k d promptText : String) (storeText : Bool)
    (hg : g.session = some st) (hw : g.writer = true) :
    (st.controlMode = newMode → setControlMode g newMode reason now = g)
    ∧ (st.controlMode ≠ newMode →
        setControlMode g newMode reason now =
          { g with
            log := g.log ++
              [mkModeChangeEvent now st st.controlMode newMode reason]
            session := some { st with controlMode := newMode } })
    ∧ (mkModeChangeEvent now st st.controlMode newMode reason).event =
        EventKind.mode_change
    ∧ (mkModeChangeEvent now st st.controlMode newMode reason).fromMode =
        some st.controlMode
    ∧ (mkModeChangeEvent now st st.controlMode newMode reason).toMode =
        some newMode
    ∧ (mkModeChangeEvent now st st.controlMode newMode reason).reason =
        some reason
    ∧ (logPolicyViolation g k d now).session = g.session
    ∧ (logPrompt g storeText promptText now).session = g.session
    ∧ (pauseSession g tp).session.map (fun s => s.controlMode) =
        g.session.map (fun s => s.controlMode) := by
  refine ⟨?_, ?_, rfl, rfl, rfl, rfl, ?_, ?_, ?_⟩
  · intro h
    simp [setControlMode, hg, hw, h]
  · intro h
    simp [setControlMode, hg, hw, h]
  · simp [logPolicyViolation, hg, hw]
  · simp [logPrompt, hg]
  · rw [hg]
    cases hl : st.isLogging
    · simp [pauseSession, hg, hl]
    · cases hpp : st.isPaused
      · simp [pauseSession, hg, hl, hpp]
      · simp [pauseSession, hg, hl, hpp]

/-- C7 witness: the theorem applied at a concrete active session. -/
theorem setControlMode_spec_witness :
    let st : SessionState :=
      { sessionId := "S_m", workspaceId := "W_m", isLogging := true
        isPaused := false, logFilePath := "m.jsonl", startTime := 0
        totalPausedMs := 0, lastPauseTime := none
        controlMode := ControlMode.human }
    let g : Glob := { session := some st, writer := true, saved := none, log := [] }
    (st.controlMode = ControlMode.ai →
        setControlMode g ControlMode.ai ModeChangeReason.ai_prompt 10 = g)
    ∧ (st.controlMode ≠ ControlMode.ai →
        setControlMode g ControlMode.ai ModeChangeReason.ai_prompt 10 =
          { g with
            log := g.log ++
              [mkModeChangeEvent 10 st st.controlMode ControlMode.ai
                ModeChangeReason.ai_prompt]
            session := some { st with controlMode := ControlMode.ai } })
    ∧ (mkModeChangeEvent 10 st st.controlMode ControlMode.ai
        ModeChangeReason.ai_prompt).event = EventKind.mode_change
    ∧ (mkModeChangeEvent 10 st st.controlMode ControlMode.ai
        ModeChangeReason.ai_prompt).fromMode = some st.controlMode
    ∧ (mkModeChangeEvent 10 st st.controlMode ControlMode.ai
        ModeChangeReason.ai_prompt).toMode = some ControlMode.ai
    ∧ (mkModeChangeEvent 10 st st.controlMode ControlMode.ai
        ModeChangeReason.ai_prompt).reason = some ModeChangeReason.ai_prompt
    ∧ (logPolicyViolation g "k" "d" 10).session = g.session
    ∧ (logPrompt g false "t" 10).session = g.session
    ∧ (pauseSession g 20).session.map (fun s => s.controlMode) =
        g.session.map (fun s => s.controlMode) :=
  setControlMode_spec _ _ _ _ 10 20 "k" "d" "t" false rfl rfl

/-- C6 is refuted by the code: the `edit`, `ai_prompt`, `file_create` and
`file_delete` construction sites (`part_001` lines 86-97 and 417-426,
`types.ts` lines 518-526 and 570-578) omit the `elapsed_ms` header
field that the `EventHeader` declaration (`types.ts` line 207) marks
required, and the `edit` site also omits the required `origin_mode`;
by contrast the `mode_change` site does set `elapsed_ms`. -/
theorem editEvent_missing_elapsedMs :
    let st : SessionState :=
      { sessionId := "S_e", workspaceId := "W_e", isLogging := true
        isPaused := false, logFilePath := "e.jsonl", startTime := 0
        totalPausedMs := 0, lastPauseTime := none
        controlMode := ControlMode.human }
    (mkEditEvent 1000 st).elapsed_ms = none
    ∧ (mkAIPromptEvent 1000 st false "fix the bug").elapsed_ms = none
    ∧ (mkFileCreateEvent 1000 st).elapsed_ms = none
    ∧ (mkFileDeleteEvent 1000 st).elapsed_ms = none
    ∧ (mkEditEvent 1000 st).origin_mode = none
    ∧ (mkModeChangeEvent 1000 st ControlMode.human ControlMode.ai
        ModeChangeReason.manual).elapsed_ms.isSome = true
    ∧ (mkEditEvent 1000 st).ts = 1000
    ∧ (mkEditEvent 1000 st).session_id = st.sessionId
    ∧ (mkEditEvent 1000 st).workspace_id = st.workspaceId
    ∧ (mkEditEvent 1000 st).event = EventKind.edit :=
  ⟨rfl, rfl, rfl, rfl, rfl, rfl, rfl, rfl, rfl, rfl⟩

/-- C8 is refuted by the code: producing an `ai_prompt` while
`control_mode = human` (`AIPromptHandler.logPrompt`, `part_001`
lines 401-429) appends exactly one record, of kind `ai_prompt`; no
`policy_violation` and no `mode_change` record is ever written by that
path, and the control mode stays `human`.  (`logPolicyViolation`
exists, `part_000` lines 165-182, but nothing on the `ai_prompt` path
calls it.) -/
theorem aiPrompt_writes_no_policy_records :
    let st : SessionState :=
      { sessionId := "S_p", workspaceId := "W_p", isLogging := true
        isPaused := false, logFilePath := "p.jsonl", startTime := 0
        totalPausedMs := 0, lastPauseTime := none
        controlMode := ControlMode.human }
    let g : Glob := { session := some st, writer := true, saved := none, log := [] }
    let g1 := logPrompt g false "write the parsing code for me" 2000
    g1.log.map (fun r => r.event) = [EventKind.ai_prompt]
    ∧ (∀ r ∈ g1.log, r.event ≠ EventKind.policy_violation)
    ∧ (∀ r ∈ g1.log, r.event ≠ EventKind.mode_change)
    ∧ g1.session = g.session
    ∧ g1.session.map (fun s => s.controlMode) = some ControlMode.human := by
  refine ⟨rfl, ?_, ?_, rfl, rfl⟩ <;> decide

/-- Folding the basename step over slash-free characters appends them. -/
lemma basename_foldl_no_slash (ys : List Char) (acc : List Char)
    (h : '/' ∉ ys) :
    ys.foldl (fun acc c => if c = '/' then [] else acc.concat c) acc =
      acc ++ ys := by
  induction ys generalizing acc with
  | nil => simp
  | cons y ys ih =>
      have hy : ¬(y = '/') := fun hcc => h (by simp [hcc])
      simp only [List.foldl_cons, if_neg hy]
      rw [ih _ (fun hm => h (List.mem_cons_of_mem _ hm))]
      simp

/-- `basenameChars` distributes over an append whose right part contains
no slash. -/
lemma basenameChars_append (xs ys : List Char) (h : '/' ∉ ys) :
    basenameChars (xs ++ ys) = basenameChars xs ++ ys := by
  unfold basenameChars
  rw [List.foldl_append]
  exact basename_foldl_no_slash ys _ h

/-- `takeWhile` of `l ++ x :: r` stops exactly at `x` when all of `l`
satisfies the predicate and `x` does not. -/
lemma takeWhile_middle (p : Char → Bool) (l r : List Char) (x : Char)
    (hl : ∀ c ∈ l, p c = true) (hx : p x = false) :
    (l ++ x :: r).takeWhile p = l := by
  induction l with
  | nil => simp [List.takeWhile_cons, hx]
  | cons a l ih =>
      have ha : p a = true := hl a (by simp)
      simp only [List.cons_append, List.takeWhile_cons, ha, if_true]
      rw [ih (fun c hc => hl c (by simp [hc]))]

/-- `extname` on a path of the shape `ds ++ "." ++ es` where the part
after the last dot has no dot and no slash and the stem is non-empty:
it returns `"." ++ es`, as Node's `path.extname` does. -/
lemma extname_split (ds es : List Char) (hslash : '/' ∉ es)
    (hdot : '.' ∉ es) (hbase : basenameChars ds ≠ []) :
    extname (String.mk (ds ++ '.' :: es)) = String.mk ('.' :: es) := by
  unfold extname
  have h0 : (String.mk (ds ++ '.' :: es)).toList = ds ++ '.' :: es := rfl
  rw [h0]
  have hns : '/' ∉ ('.' :: es) := by
    intro hm
    rcases List.mem_cons.mp hm with h1 | h1
    · exact absurd h1.symm (by decide)
    · exact hslash h1
  rw [basenameChars_append ds ('.' :: es) hns]
  dsimp only
  have hrev : (basenameChars ds ++ '.' :: es).reverse =
      es.reverse ++ '.' :: (basenameChars ds).reverse := by
    simp
  rw [hrev]
  have htw : (es.reverse ++ '.' :: (basenameChars ds).reverse).takeWhile
      (fun c => decide (c ≠ '.')) = es.reverse := by
    apply takeWhile_middle
    · intro c hc
      simp only [decide_eq_true_iff]
      intro hcd
      exact hdot (by simpa [hcd] using List.mem_reverse.mp hc)
    · simp
  rw [htw]
  rw [if_pos]
  · simp
  · have : 0 < (basenameChars ds).length := List.length_pos.mpr hbase
    simp only [List.length_reverse, List.length_append, List.length_cons]
    omega

/-- The rotated file name on a path of the shape `ds ++ "." ++ es`:
`"_<i>"` is inserted between the stem and the extension. -/
lemma rotatedLogPath_split (ds es : List Char) (i : Nat) (hslash : '/' ∉ es)
    (hdot : '.' ∉ es) (hbase : basenameChars ds ≠ []) :
    rotatedLogPath (String.mk (ds ++ '.' :: es)) i =
      String.mk (ds ++ '_' :: (toString i).toList ++ '.' :: es) := by
  unfold rotatedLogPath
  rw [extname_split ds es hslash hdot hbase]
  dsimp only
  have hlen : (String.mk ('.' :: es)).toList.length = es.length + 1 := by simp
  rw [hlen]
  unfold jsSliceMinus
  rw [if_neg (by omega)]
  have h0 : (String.mk (ds ++ '.' :: es)).toList = ds ++ '.' :: es := rfl
  rw [h0]
  have hlen2 : (ds ++ '.' :: es).length - (es.length + 1) = ds.length := by
    simp
  rw [hlen2, List.take_left]
  have hmk : ∀ a b : List Char, String.mk a ++ String.mk b = String.mk (a ++ b) :=
    fun _ _ => rfl
  have hus : "_" = String.mk ['_'] := rfl
  have hts : toString i = String.mk (toString i).toList := rfl
  rw [hus, hmk, hts, hmk, hmk]
  simp

/-- Rotation never touches the data already on disk. -/
lemma rotateIfNeeded_disk (cfg : CraftLogConfig) (s : WriterState) :
    (rotateIfNeeded cfg s).disk = s.disk := by
  unfold rotateIfNeeded
  dsimp only
  split <;> rfl

/-- C2: before each append the writer compares the byte counter against
`maxFileSizeMB * 1024 * 1024`; at or above the limit it bumps the
rotation index, switches to the file obtained by inserting `_<index>`
between the base name and its extension and resets the counter (which
then counts only the new record); below the limit it appends to the
current file and adds the record's bytes; in both cases exactly one
`(file, line)` pair holding the whole serialized record is appended to
the disk, and a whole write sequence appends exactly the serialized
records in order, so no record spans two files. -/
theorem logWriter_rotation_spec (cfg : CraftLogConfig) (s : WriterState)
    (e : LogRecord) (es : List LogRecord) (ds ext : List Char) (i : Nat)
    (hslash : '/' ∉ ext) (hdot : '.' ∉ ext)
    (hbase : basenameChars ds ≠ []) :
    (cfg.maxFileSizeMB * 1024 * 1024 ≤ s.currentFileSize →
      (writeRecord cfg s e).fileIndex = s.fileIndex + 1
      ∧ (writeRecord cfg s e).logFilePath =
          rotatedLogPath s.baseLogPath (s.fileIndex + 1)
      ∧ (writeRecord cfg s e).currentFileSize = (serializeLine e).utf8ByteSize
      ∧ (writeRecord cfg s e).disk = s.disk ++
          [(rotatedLogPath s.baseLogPath (s.fileIndex + 1), serializeLine e)])
    ∧ (s.currentFileSize < cfg.maxFileSizeMB * 1024 * 1024 →
      (writeRecord cfg s e).fileIndex = s.fileIndex
      ∧ (writeRecord cfg s e).logFilePath = s.logFilePath
      ∧ (writeRecord cfg s e).currentFileSize =
          s.currentFileSize + (serializeLine e).utf8ByteSize
      ∧ (writeRecord cfg s e).disk = s.disk ++ [(s.logFilePath, serializeLine e)])
    ∧ (writeRecord cfg s e).disk = s.disk ++
        [((rotateIfNeeded cfg s).logFilePath, serializeLine e)]
    ∧ (writeAll cfg s es).disk.map Prod.snd =
        s.disk.map Prod.snd ++ es.map serializeLine
    ∧ rotatedLogPath (String.mk (ds ++ '.' :: ext)) i =
        String.mk (ds ++ '_' :: (toString i).toList ++ '.' :: ext) := by
  refine ⟨?_, ?_, ?_, ?_, rotatedLogPath_split ds ext i hslash hdot hbase⟩
  · intro h
    simp [writeRecord, rotateIfNeeded, if_pos h]
  · intro h
    have hnot : ¬ (cfg.maxFileSizeMB * 1024 * 1024 ≤ s.currentFileSize) := by
      omega
    simp [writeRecord, rotateIfNeeded, hnot]
  · simp [writeRecord, rotateIfNeeded_disk]
  · induction es generalizing s with
    | nil => simp [writeAll]
    | cons a as ih =>
        have hstep : writeAll cfg s (a :: as) =
            writeAll cfg (writeRecord cfg s a) as := rfl
        rw [hstep, ih]
        simp [writeRecord, rotateIfNeeded_disk]

/-- C2 witness: the theorem applied at a concrete writer state sitting
exactly at the size limit and at the concrete path
`S_2026-10-12_ab.jsonl`. -/
theorem logWriter_rotation_spec_witness :
    let cfg : CraftLogConfig :=
      { storePromptText := false, logDirectory := "", snapshotIntervalMs := 10000
        pasteLikeThreshold := 80, excludePatterns := [], targetExtensions := []
        maxFileSizeMB := 0 }
    let s : WriterState :=
      { logFilePath := "a.jsonl", baseLogPath := "a.jsonl"
        currentFileSize := 0, fileIndex := 0, disk := [] }
    let e : LogRecord :=
      { ts := 1, elapsed_ms := some 0, session_id := "S", workspace_id := "W"
        event := EventKind.note }
    (cfg.maxFileSizeMB * 1024 * 1024 ≤ s.currentFileSize →
      (writeRecord cfg s e).fileIndex = s.fileIndex + 1
      ∧ (writeRecord cfg s e).logFilePath =
          rotatedLogPath s.baseLogPath (s.fileIndex + 1)
      ∧ (writeRecord cfg s e).currentFileSize = (serializeLine e).utf8ByteSize
      ∧ (writeRecord cfg s e).disk = s.disk ++
          [(rotatedLogPath s.baseLogPath (s.fileIndex + 1), serializeLine e)])
    ∧ (s.currentFileSize < cfg.maxFileSizeMB * 1024 * 1024 →
      (writeRecord cfg s e).fileIndex = s.fileIndex
      ∧ (writeRecord cfg s e).logFilePath = s.logFilePath
      ∧ (writeRecord cfg s e).currentFileSize =
          s.currentFileSize + (serializeLine e).utf8ByteSize
      ∧ (writeRecord cfg s e).disk = s.disk ++ [(s.logFilePath, serializeLine e)])
    ∧ (writeRecord cfg s e).disk = s.disk ++
        [((rotateIfNeeded cfg s).logFilePath, serializeLine e)]
    ∧ (writeAll cfg s [e, e]).disk.map Prod.snd =
        s.disk.map Prod.snd ++ [e, e].map serializeLine
    ∧ rotatedLogPath (String.mk ("S_2026-10-12_ab".toList ++ '.' :: "jsonl".toList)) 1 =
        String.mk ("S_2026-10-12_ab".toList ++ '_' :: (toString 1).toList ++
          '.' :: "jsonl".toList) :=
  logWriter_rotation_spec _ _ _ [_, _] _ _ 1 (by decide) (by decide) (by decide)

/-- C10: the `LogWriter` constructor initializes the byte counter to the
existing file's size (`0` when the file is missing or `stat` fails), so
a writer reopened on a file already at or over the limit rotates on its
first write instead of counting only post-reopen bytes. -/
theorem writerInit_fileSize_spec (p : String) (n : Nat)
    (cfg : CraftLogConfig) (e : LogRecord)
    (hbig : cfg.maxFileSizeMB * 1024 * 1024 ≤ n) :
    (mkWriterState p (some n)).currentFileSize = n
    ∧ (mkWriterState p none).currentFileSize = 0
    ∧ (mkWriterState p (some n)).baseLogPath = p
    ∧ (writeRecord cfg (mkWriterState p (some n)) e).fileIndex = 1
    ∧ (writeRecord cfg (mkWriterState p (some n)) e).disk =
        [(rotatedLogPath p 1, serializeLine e)] := by
  refine ⟨rfl, rfl, rfl, ?_, ?_⟩
  · simp [writeRecord, rotateIfNeeded, mkWriterState, updateCurrentFileSize, hbig]
  · simp [writeRecord, rotateIfNeeded, mkWriterState, updateCurrentFileSize, hbig]

/-- C10 witness: the theorem applied at a concrete path and a
pre-existing file exactly at the 1 MiB limit. -/
theorem writerInit_fileSize_spec_witness :
    let cfg : CraftLogConfig :=
      { storePromptText := false, logDirectory := "", snapshotIntervalMs := 10000
        pasteLikeThreshold := 80, excludePatterns := [], targetExtensions := []
        maxFileSizeMB := 1 }
    let e : LogRecord :=
      { ts := 1, elapsed_ms := some 0, session_id := "S", workspace_id := "W"
        event := EventKind.note }
    (mkWriterState "b.jsonl" (some 1048576)).currentFileSize = 1048576
    ∧ (mkWriterState "b.jsonl" none).currentFileSize = 0
    ∧ (mkWriterState "b.jsonl" (some 1048576)).baseLogPath = "b.jsonl"
    ∧ (writeRecord cfg (mkWriterState "b.jsonl" (some 1048576)) e).fileIndex = 1
    ∧ (writeRecord cfg (mkWriterState "b.jsonl" (some 1048576)) e).disk =
        [(rotatedLogPath "b.jsonl" 1, serializeLine e)] :=
  writerInit_fileSize_spec "b.jsonl" 1048576 _ _ (by norm_num)

/-- Along every reachable trace of the writer's asynchronous
bookkeeping, the in-flight count equals accepted writes minus fired
callbacks, and callbacks never outnumber accepted writes. -/
lemma writer_pending_invariant (s : AsyncWriterState)
    (h : WriterReachable s) :
    s.pendingWrites = (s.acceptedCount : Int) -
        ((s.completedOk : Int) + (s.completedErr : Int))
    ∧ s.completedOk + s.completedErr ≤ s.acceptedCount := by
  induction h with
  | init => simp [initAsyncWriter]
  | write s can hr ih =>
      obtain ⟨h1, h2⟩ := ih
      refine ⟨?_, ?_⟩
      · simp [asyncWrite]
        omega
      · simp [asyncWrite]
        omega
  | callback s err hr hpos ih =>
      obtain ⟨h1, h2⟩ := ih
      cases err
      · refine ⟨?_, ?_⟩
        · simp [writeCallback]
          omega
        · simp [writeCallback]
          omega
      · refine ⟨?_, ?_⟩
        · simp [writeCallback]
          omega
        · simp [writeCallback]
          omega
  | drain s hr ih =>
      obtain ⟨h1, h2⟩ := ih
      exact ⟨h1, h2⟩

/-- C3: `write` never raises — every call is accepted and increments the
acceptance count; the completion callback decrements the in-flight
count whether or not the append failed; `forceFlush` returns only in a
state whose drain condition has cleared and whose in-flight count is
zero; and since `dispose` closes the stream only after `forceFlush`
returns, at close time every accepted write's callback has fired, so in
an error-free run every accepted event has been handed to the stream
in full (no event accepted before `dispose` is lost). -/
theorem logWriter_flush_spec (s sf : AsyncWriterState)
    (err canContinue : Bool) (hr : WriterReachable sf)
    (hd : disposeClosesAt sf) :
    (asyncWrite s canContinue).acceptedCount = s.acceptedCount + 1
    ∧ (writeCallback s err).pendingWrites = s.pendingWrites - 1
    ∧ sf.drainPending = false
    ∧ sf.pendingWrites = 0
    ∧ sf.completedOk + sf.completedErr = sf.acceptedCount
    ∧ (sf.completedErr = 0 → sf.completedOk = sf.acceptedCount) := by
  obtain ⟨hdr, hpw⟩ := hd
  obtain ⟨hinv, hle⟩ := writer_pending_invariant sf hr
  have hdone : sf.completedOk + sf.completedErr = sf.acceptedCount := by
    omega
  refine ⟨rfl, ?_, hdr, hpw, hdone, fun hz => by omega⟩
  cases err <;> rfl

/-- C3 witness: the theorem applied to the concrete trace
write-then-failed-callback, which reaches a state where `forceFlush`
can return. -/
theorem logWriter_flush_spec_witness :
    let sf := writeCallback (asyncWrite initAsyncWriter true) true
    (asyncWrite initAsyncWriter false).acceptedCount =
        initAsyncWriter.acceptedCount + 1
    ∧ (writeCallback initAsyncWriter true).pendingWrites =
        initAsyncWriter.pendingWrites - 1
    ∧ sf.drainPending = false
    ∧ sf.pendingWrites = 0
    ∧ sf.completedOk + sf.completedErr = sf.acceptedCount
    ∧ (sf.completedErr = 0 → sf.completedOk = sf.acceptedCount) :=
  logWriter_flush_spec initAsyncWriter _ true false
    (WriterReachable.callback _ true
      (WriterReachable.write _ true WriterReachable.init)
      (by simp [asyncWrite, initAsyncWriter]))
    (by constructor <;> rfl)

/-- Per-entry `added_loc` contribution following the claim's wording: a
path only in the current map contributes its full `loc`; a path in both
contributes its positive `loc` delta; net-zero or negative deltas
contribute nothing here. -/
def addedLocContribution (prev : List (String × SingleFileStats))
    (kv : String × SingleFileStats) : Int :=
  match mapGet? prev kv.1 with
  | none => kv.2.loc
  | some ps => if kv.2.loc - ps.loc > 0 then kv.2.loc - ps.loc else 0

/-- Per-entry `removed_loc` contribution from the current-map pass: the
absolute value of a negative `loc` delta for a path in both maps. -/
def removedLocContribution (prev : List (String × SingleFileStats))
    (kv : String × SingleFileStats) : Int :=
  match mapGet? prev kv.1 with
  | none => 0
  | some ps => if kv.2.loc - ps.loc < 0 then |kv.2.loc - ps.loc| else 0

/-- Per-entry `added_bytes` contribution, analogous to
`addedLocContribution`. -/
def addedBytesContribution (prev : List (String × SingleFileStats))
    (kv : String × SingleFileStats) : Int :=
  match mapGet? prev kv.1 with
  | none => kv.2.bytes
  | some ps => if kv.2.bytes - ps.bytes > 0 then kv.2.bytes - ps.bytes else 0

/-- Per-entry `removed_bytes` contribution, analogous to
`removedLocContribution`. -/
def removedBytesContribution (prev : List (String × SingleFileStats))
    (kv : String × SingleFileStats) : Int :=
  match mapGet? prev kv.1 with
  | none => 0
  | some ps => if kv.2.bytes - ps.bytes < 0 then |kv.2.bytes - ps.bytes| else 0

/-- The diff as the claim words it: paths only in the current map are
added with their full stats, paths only in the previous map are removed
with their full stats, and paths in both contribute only signed deltas. -/
def claimedDiff (prev cur : List (String × SingleFileStats)) : DiffResult :=
  let removedOnly := prev.filter (fun kv => !(mapHas cur kv.1))
  { addedPaths := (cur.filter (fun kv => !(mapHas prev kv.1))).map Prod.fst
    removedPaths := removedOnly.map Prod.fst
    addedLoc := (cur.map (addedLocContribution prev)).sum
    removedLoc := (cur.map (removedLocContribution prev)).sum +
      (removedOnly.map (fun kv => kv.2.loc)).sum
    addedBytes := (cur.map (addedBytesContribution prev)).sum
    removedBytes := (cur.map (removedBytesContribution prev)).sum +
      (removedOnly.map (fun kv => kv.2.bytes)).sum }

/-- `Map.has` agrees with `Map.get` yielding a value. -/
lemma mapHas_eq_isSome (m : List (String × SingleFileStats)) (p : String) :
    mapHas m p = (mapGet? m p).isSome := by
  induction m with
  | nil => rfl
  | cons kv m ih =>
      by_cases h : kv.1 = p
      · simp [mapHas, mapGet?, List.any_cons, List.find?_cons, h]
      · simp only [mapHas, mapGet?, List.any_cons, List.find?_cons] at ih ⊢
        simp [h, ih]

/-- The first diff loop body, written field by field. -/
lemma diffAddStep_eq (prev : List (String × SingleFileStats))
    (acc : DiffResult) (kv : String × SingleFileStats) :
    diffAddStep prev acc kv =
      { addedPaths := acc.addedPaths ++
          (if mapHas prev kv.1 then [] else [kv.1])
        removedPaths := acc.removedPaths
        addedLoc := acc.addedLoc + addedLocContribution prev kv
        removedLoc := acc.removedLoc + removedLocContribution prev kv
        addedBytes := acc.addedBytes + addedBytesContribution prev kv
        removedBytes := acc.removedBytes + removedBytesContribution prev kv } := by
  rw [mapHas_eq_isSome]
  cases hg : mapGet? prev kv.1 with
  | none =>
      simp [diffAddStep, addedLocContribution, removedLocContribution,
        addedBytesContribution, removedBytesContribution, hg]
  | some ps =>
      simp only [diffAddStep, addedLocContribution, removedLocContribution,
        addedBytesContribution, removedBytesContribution, hg,
        Option.isSome_some, if_true]
      split_ifs <;> simp <;> omega

/-- The second diff loop body, written field by field. -/
lemma diffRemoveStep_eq (cur : List (String × SingleFileStats))
    (acc : DiffResult) (kv : String × SingleFileStats) :
    diffRemoveStep cur acc kv =
      { addedPaths := acc.addedPaths
        removedPaths := acc.removedPaths ++
          (if mapHas cur kv.1 then [] else [kv.1])
        addedLoc := acc.addedLoc
        removedLoc := acc.removedLoc + (if mapHas cur kv.1 then 0 else kv.2.loc)
        addedBytes := acc.addedBytes
        removedBytes := acc.removedBytes +
          (if mapHas cur kv.1 then 0 else kv.2.bytes) } := by
  by_cases h : mapHas cur kv.1 <;> simp [diffRemoveStep, h]

/-- The first loop of `emitWorkspaceDiff`, summed over the whole current
map. -/
lemma diffAddLoop_eq (prev cur : List (String × SingleFileStats))
    (acc : DiffResult) :
    cur.foldl (diffAddStep prev) acc =
      { addedPaths := acc.addedPaths ++
          (cur.filter (fun kv => !(mapHas prev kv.1))).map Prod.fst
        removedPaths := acc.removedPaths
        addedLoc := acc.addedLoc + (cur.map (addedLocContribution prev)).sum
        removedLoc := acc.removedLoc +
          (cur.map (removedLocContribution prev)).sum
        addedBytes := acc.addedBytes +
          (cur.map (addedBytesContribution prev)).sum
        removedBytes := acc.removedBytes +
          (cur.map (removedBytesContribution prev)).sum } := by
  induction cur generalizing acc with
  | nil => simp
  | cons kv cur ih =>
      rw [List.foldl_cons, ih, diffAddStep_eq]
      by_cases h : mapHas prev kv.1 <;>
        simp [h, List.filter_cons, add_assoc]

/-- The second loop of `emitWorkspaceDiff`, summed over the whole
previous map. -/
lemma diffRemoveLoop_eq (cur prev : List (String × SingleFileStats))
    (acc : DiffResult) :
    prev.foldl (diffRemoveStep cur) acc =
      { addedPaths := acc.addedPaths
        removedPaths := acc.removedPaths ++
          (prev.filter (fun kv => !(mapHas cur kv.1))).map Prod.fst
        addedLoc := acc.addedLoc
        removedLoc := acc.removedLoc +
          ((prev.filter (fun kv => !(mapHas cur kv.1))).map
            (fun kv => kv.2.loc)).sum
        addedBytes := acc.addedBytes
        removedBytes := acc.removedBytes +
          ((prev.filter (fun kv => !(mapHas cur kv.1))).map
            (fun kv => kv.2.bytes)).sum } := by
  induction prev generalizing acc with
  | nil => simp
  | cons kv prev ih =>
      rw [List.foldl_cons, ih, diffRemoveStep_eq]
      by_cases h : mapHas cur kv.1 <;>
        simp [h, List.filter_cons, add_assoc]

/-- The diff computed by the source equals the claim's formulation. -/
lemma computeDiff_eq_claimedDiff (prev cur : List (String × SingleFileStats)) :
    computeDiff prev cur = claimedDiff prev cur := by
  unfold computeDiff claimedDiff
  rw [diffAddLoop_eq, diffRemoveLoop_eq]
  simp [emptyDiff]

/-- With non-negative per-file stats (line counts and byte sizes are
non-negative in the source), all four diff totals are non-negative, so
"positive" and "non-zero" coincide for them. -/
lemma computeDiff_nonneg (prev cur : List (String × SingleFileStats))
    (hprev : ∀ kv ∈ prev, 0 ≤ kv.2.loc ∧ 0 ≤ kv.2.bytes)
    (hcur : ∀ kv ∈ cur, 0 ≤ kv.2.loc ∧ 0 ≤ kv.2.bytes) :
    0 ≤ (computeDiff prev cur).addedLoc
    ∧ 0 ≤ (computeDiff prev cur).removedLoc
    ∧ 0 ≤ (computeDiff prev cur).addedBytes
    ∧ 0 ≤ (computeDiff prev cur).removedBytes := by
  rw [computeDiff_eq_claimedDiff]
  unfold claimedDiff
  refine ⟨?_, ?_, ?_, ?_⟩
  · apply List.sum_nonneg
    intro x hx
    obtain ⟨kv, hkv, rfl⟩ := List.mem_map.mp hx
    unfold addedLocContribution
    cases hg : mapGet? prev kv.1
    · exact (hcur kv hkv).1
    · dsimp only
      split_ifs <;> omega
  · apply add_nonneg
    · apply List.sum_nonneg
      intro x hx
      obtain ⟨kv, hkv, rfl⟩ := List.mem_map.mp hx
      unfold removedLocContribution
      cases hg : mapGet? prev kv.1
      · simp
      · dsimp only
        split_ifs with h
        · exact abs_nonneg _
        · simp
    · apply List.sum_nonneg
      intro x hx
      obtain ⟨kv, hkv, rfl⟩ := List.mem_map.mp hx
      exact (hprev kv (List.mem_of_mem_filter hkv)).1
  · apply List.sum_nonneg
    intro x hx
    obtain ⟨kv, hkv, rfl⟩ := List.mem_map.mp hx
    unfold addedBytesContribution
    cases hg : mapGet? prev kv.1
    · exact (hcur kv hkv).2
    · dsimp only
      split_ifs <;> omega
  · apply add_nonneg
    · apply List.sum_nonneg
      intro x hx
      obtain ⟨kv, hkv, rfl⟩ := List.mem_map.mp hx
      unfold removedBytesContribution
      cases hg : mapGet? prev kv.1
      · simp
      · dsimp only
        split_ifs with h
        · exact abs_nonneg _
        · simp
    · apply List.sum_nonneg
      intro x hx
      obtain ⟨kv, hkv, rfl⟩ := List.mem_map.mp hx
      exact (hprev kv (List.mem_of_mem_filter hkv)).2

/-- The guard of `emitWorkspaceDiff` as the claim words it: emitted iff
the previous map is populated and at least one of the six fields is
non-zero. -/
lemma emitWorkspaceDiff_isSome_iff (prev cur : List (String × SingleFileStats))
    (hprev : ∀ kv ∈ prev, 0 ≤ kv.2.loc ∧ 0 ≤ kv.2.bytes)
    (hcur : ∀ kv ∈ cur, 0 ≤ kv.2.loc ∧ 0 ≤ kv.2.bytes) :
    (emitWorkspaceDiff prev cur).isSome ↔
      prev ≠ [] ∧
        ((computeDiff prev cur).addedPaths.length ≠ 0
         ∨ (computeDiff prev cur).removedPaths.length ≠ 0
         ∨ (computeDiff prev cur).addedLoc ≠ 0
         ∨ (computeDiff prev cur).removedLoc ≠ 0
         ∨ (computeDiff prev cur).addedBytes ≠ 0
         ∨ (computeDiff prev cur).removedBytes ≠ 0) := by
  obtain ⟨n1, n2, n3, n4⟩ := computeDiff_nonneg prev cur hprev hcur
  unfold emitWorkspaceDiff
  by_cases hp : prev.length = 0
  · simp only [hp, if_true, Option.isSome_none, Bool.false_eq_true,
      false_iff]
    intro hcontra
    exact hcontra.1 (List.length_eq_zero.mp hp)
  · rw [if_neg hp]
    have hpe : prev ≠ [] := fun he => hp (by simp [he])
    dsimp only
    by_cases hs : shouldEmitDiff (computeDiff prev cur) = true
    · simp only [hs, if_true, Option.isSome_some, true_iff]
      refine ⟨hpe, ?_⟩
      unfold shouldEmitDiff at hs
      simp only [Bool.or_eq_true, decide_eq_true_eq] at hs
      rcases hs with ((((h | h) | h) | h) | h) | h
      · exact Or.inl (by omega)
      · exact Or.inr (Or.inl (by omega))
      · exact Or.inr (Or.inr (Or.inl (by omega)))
      · exact Or.inr (Or.inr (Or.inr (Or.inl (by omega))))
      · exact Or.inr (Or.inr (Or.inr (Or.inr (Or.inl (by omega)))))
      · exact Or.inr (Or.inr (Or.inr (Or.inr (Or.inr (by omega)))))
    · simp only [hs, if_false, Option.isSome_none, Bool.false_eq_true,
        false_iff]
      intro hcontra
      apply hs
      unfold shouldEmitDiff
      simp only [Bool.or_eq_true, decide_eq_true_eq]
      rcases hcontra.2 with h | h | h | h | h | h
      · exact Or.inl (Or.inl (Or.inl (Or.inl (Or.inl (by omega)))))
      · exact Or.inl (Or.inl (Or.inl (Or.inl (Or.inr (by omega)))))
      · exact Or.inl (Or.inl (Or.inl (Or.inr (by omega))))
      · exact Or.inl (Or.inl (Or.inr (by omega)))
      · exact Or.inl (Or.inr (by omega))
      · exact Or.inr (by omega)

/-- C4: the diff step charges each current-only path with its full
stats, each previous-only path with its full stats, and each shared
path with its positive delta on the added side and the absolute value
of its negative delta on the removed side (net-zero deltas contribute
nothing); a `workspace_diff` record is written iff the previous map is
populated and one of the six fields is non-zero; and afterwards the
current map unconditionally replaces the previous map. -/
theorem workspaceDiff_spec (prev cur : List (String × SingleFileStats))
    (st : SessionState) (h h1 : SnapshotHandlerState) (ws : WorkspaceStats)
    (now : Int) (scan : WorkspaceStats)
    (hprev : ∀ kv ∈ prev, 0 ≤ kv.2.loc ∧ 0 ≤ kv.2.bytes)
    (hcur : ∀ kv ∈ cur, 0 ≤ kv.2.loc ∧ 0 ≤ kv.2.bytes)
    (hl : st.isLogging = true)
    (hws : (collectWorkspaceStatsWithFileMap now scan h).1 = ws)
    (hh1 : (collectWorkspaceStatsWithFileMap now scan h).2 = h1) :
    computeDiff prev cur = claimedDiff prev cur
    ∧ ((emitWorkspaceDiff prev cur).isSome ↔
        prev ≠ [] ∧
          ((computeDiff prev cur).addedPaths.length ≠ 0
           ∨ (computeDiff prev cur).removedPaths.length ≠ 0
           ∨ (computeDiff prev cur).addedLoc ≠ 0
           ∨ (computeDiff prev cur).removedLoc ≠ 0
           ∨ (computeDiff prev cur).addedBytes ≠ 0
           ∨ (computeDiff prev cur).removedBytes ≠ 0))
    ∧ (takeSnapshot st now scan h).1.previousWorkspaceFiles = ws.fileMap
    ∧ (takeSnapshot st now scan h).2 =
        mkSnapshotEvent now st ws ::
          (match emitWorkspaceDiff h1.previousWorkspaceFiles ws.fileMap with
           | some d => [mkWorkspaceDiffEvent now st d]
           | none => []) := by
  refine ⟨computeDiff_eq_claimedDiff prev cur,
    emitWorkspaceDiff_isSome_iff prev cur hprev hcur, ?_, ?_⟩
  · unfold takeSnapshot
    simp only [hl, Bool.not_true, Bool.false_eq_true, if_false]
    simp [hws]
  · unfold takeSnapshot
    simp only [hl, Bool.not_true, Bool.false_eq_true, if_false]
    simp only [hws, hh1]
    cases emitWorkspaceDiff h1.previousWorkspaceFiles ws.fileMap <;> rfl

/-- C4 witness: the theorem applied to concrete maps exercising all three
contribution cases (grown file, shrunk file, added path, removed path)
and a concrete snapshot-handler state. -/
theorem workspaceDiff_spec_witness :
    let sA : SingleFileStats := { loc := 10, bytes := 100 }
    let sA2 : SingleFileStats := { loc := 15, bytes := 90 }
    let sB : SingleFileStats := { loc := 5, bytes := 50 }
    let sC : SingleFileStats := { loc := 3, bytes := 30 }
    let prev := [("A", sA), ("B", sB)]
    let cur := [("A", sA2), ("C", sC)]
    let st : SessionState :=
      { sessionId := "S_w", workspaceId := "W_w", isLogging := true
        isPaused := false, logFilePath := "w.jsonl", startTime := 0
        totalPausedMs := 0, lastPauseTime := none
        controlMode := ControlMode.human }
    let ws : WorkspaceStats := { files := 2, loc := 18, bytes := 120
                                 fileMap := cur }
    let h : SnapshotHandlerState :=
      { statsCache := none, cacheValidityMs := 5000
        previousWorkspaceFiles := prev }
    let h1 : SnapshotHandlerState :=
      { statsCache := some { stats := ws, timestamp := 7 }
        cacheValidityMs := 5000
        previousWorkspaceFiles := prev }
    computeDiff prev cur = claimedDiff prev cur
    ∧ ((emitWorkspaceDiff prev cur).isSome ↔
        prev ≠ [] ∧
          ((computeDiff prev cur).addedPaths.length ≠ 0
           ∨ (computeDiff prev cur).removedPaths.length ≠ 0
           ∨ (computeDiff prev cur).addedLoc ≠ 0
           ∨ (computeDiff prev cur).removedLoc ≠ 0
           ∨ (computeDiff prev cur).addedBytes ≠ 0
           ∨ (computeDiff prev cur).removedBytes ≠ 0))
    ∧ (takeSnapshot st 7 ws h).1.previousWorkspaceFiles = ws.fileMap
    ∧ (takeSnapshot st 7 ws h).2 =
        mkSnapshotEvent 7 st ws ::
          (match emitWorkspaceDiff h1.previousWorkspaceFiles ws.fileMap with
           | some d => [mkWorkspaceDiffEvent 7 st d]
           | none => []) :=
  workspaceDiff_spec _ _ _ _ _ _ 7 _ (by decide) (by decide) rfl rfl rfl

/-- On a duplicate-key-free map (JS `Map`s are such by construction),
`get` on a stored key returns that key's stored value. -/
lemma mapGet?_self (m : List (String × SingleFileStats))
    (hnd : (m.map Prod.fst).Nodup) (kv : String × SingleFileStats)
    (hm : kv ∈ m) : mapGet? m kv.1 = some kv.2 := by
  induction m with
  | nil => cases hm
  | cons a m ih =>
      rw [List.map_cons, List.nodup_cons] at hnd
      rcases List.mem_cons.mp hm with rfl | hm'
      · have hstep : mapGet? (kv :: m) kv.1 = some kv.2 := by
          unfold mapGet?
          rw [List.find?_cons_of_pos _ (by simp)]
          rfl
        exact hstep
      · have hne : ¬(a.1 = kv.1) := by
          intro he
          exact hnd.1 (he ▸ List.mem_map_of_mem Prod.fst hm')
        have hstep : mapGet? (a :: m) kv.1 = mapGet? m kv.1 := by
          unfold mapGet?
          rw [List.find?_cons_of_neg _ (by simpa using hne)]
        rw [hstep]
        exact ih hnd.2 hm'

/-- Diffing a duplicate-key-free map against itself yields the empty
diff. -/
lemma computeDiff_self (m : List (String × SingleFileStats))
    (hnd : (m.map Prod.fst).Nodup) : computeDiff m m = emptyDiff := by
  rw [computeDiff_eq_claimedDiff]
  have hhas : ∀ kv ∈ m, mapHas m kv.1 = true := by
    intro kv hm
    rw [mapHas_eq_isSome, mapGet?_self m hnd kv hm]
    rfl
  have hfil : m.filter (fun kv => !(mapHas m kv.1)) = [] := by
    apply List.filter_eq_nil_iff.mpr
    intro kv hm
    simp [hhas kv hm]
  unfold claimedDiff
  rw [hfil]
  have hz1 : (m.map (addedLocContribution m)).sum = 0 := by
    apply List.sum_eq_zero
    intro x hx
    obtain ⟨kv, hkv, rfl⟩ := List.mem_map.mp hx
    unfold addedLocContribution
    rw [mapGet?_self m hnd kv hkv]
    simp
  have hz2 : (m.map (removedLocContribution m)).sum = 0 := by
    apply List.sum_eq_zero
    intro x hx
    obtain ⟨kv, hkv, rfl⟩ := List.mem_map.mp hx
    unfold removedLocContribution
    rw [mapGet?_self m hnd kv hkv]
    simp
  have hz3 : (m.map (addedBytesContribution m)).sum = 0 := by
    apply List.sum_eq_zero
    intro x hx
    obtain ⟨kv, hkv, rfl⟩ := List.mem_map.mp hx
    unfold addedBytesContribution
    rw [mapGet?_self m hnd kv hkv]
    simp
  have hz4 : (m.map (removedBytesContribution m)).sum = 0 := by
    apply List.sum_eq_zero
    intro x hx
    obtain ⟨kv, hkv, rfl⟩ := List.mem_map.mp hx
    unfold removedBytesContribution
    rw [mapGet?_self m hnd kv hkv]
    simp
  simp [hz1, hz2, hz3, hz4, emptyDiff]

/-- A map diffed against itself produces no `workspace_diff` record. -/
lemma emitWorkspaceDiff_self (m : List (String × SingleFileStats))
    (hnd : (m.map Prod.fst).Nodup) : emitWorkspaceDiff m m = none := by
  unfold emitWorkspaceDiff
  by_cases hp : m.length = 0
  · simp [hp]
  · rw [if_neg hp]
    dsimp only
    rw [computeDiff_self m hnd]
    rfl

/-- Unfolding equation for a logging `takeSnapshot`. -/
lemma takeSnapshot_logging_eq (st : SessionState) (now : Int)
    (scan : WorkspaceStats) (h : SnapshotHandlerState)
    (hl : st.isLogging = true) :
    takeSnapshot st now scan h =
      ({ (collectWorkspaceStatsWithFileMap now scan h).2 with
          previousWorkspaceFiles :=
            (collectWorkspaceStatsWithFileMap now scan h).1.fileMap },
       [mkSnapshotEvent now st (collectWorkspaceStatsWithFileMap now scan h).1] ++
         (match emitWorkspaceDiff
             (collectWorkspaceStatsWithFileMap now scan h).2.previousWorkspaceFiles
             (collectWorkspaceStatsWithFileMap now scan h).1.fileMap with
          | some d => [mkWorkspaceDiffEvent now st d]
          | none => [])) := by
  unfold takeSnapshot
  rw [hl]
  rfl

/-- A cache hit inside the validity window reuses the cached stats and
leaves the handler state unchanged (`snapshotHandler.ts`
lines 200-202). -/
lemma collect_hit (now : Int) (scan : WorkspaceStats)
    (h : SnapshotHandlerState) (c : CachedStats)
    (hc : h.statsCache = some c)
    (hf : now - c.timestamp < h.cacheValidityMs) :
    collectWorkspaceStatsWithFileMap now scan h = (c.stats, h) := by
  unfold collectWorkspaceStatsWithFileMap
  rw [hc]
  dsimp only
  rw [if_pos hf]

/-- `collectWorkspaceStatsWithFileMap` never changes the validity
window. -/
lemma collect_validity (now : Int) (scan : WorkspaceStats)
    (h : SnapshotHandlerState) :
    (collectWorkspaceStatsWithFileMap now scan h).2.cacheValidityMs =
      h.cacheValidityMs := by
  unfold collectWorkspaceStatsWithFileMap
  cases hc : h.statsCache
  · rfl
  · dsimp only
    split <;> rfl

/-- Whatever `collectWorkspaceStatsWithFileMap` leaves in the cache is
the pair it returned. -/
lemma collect_cache_stats (now : Int) (scan : WorkspaceStats)
    (h : SnapshotHandlerState) (c : CachedStats)
    (hc : (collectWorkspaceStatsWithFileMap now scan h).2.statsCache = some c) :
    (collectWorkspaceStatsWithFileMap now scan h).1 = c.stats := by
  unfold collectWorkspaceStatsWithFileMap at hc ⊢
  cases hcache : h.statsCache with
  | none =>
      rw [hcache] at hc
      dsimp only at hc ⊢
      simp only [Option.some.injEq] at hc
      rw [← hc]
  | some c0 =>
      rw [hcache] at hc
      dsimp only at hc ⊢
      by_cases hf : now - c0.timestamp < h.cacheValidityMs
      · rw [if_pos hf] at hc ⊢
        dsimp only at hc ⊢
        rw [hcache] at hc
        simp only [Option.some.injEq] at hc
        rw [hc]
      · rw [if_neg hf] at hc ⊢
        dsimp only at hc ⊢
        simp only [Option.some.injEq] at hc
        rw [← hc]

/-- C9: a second `takeSnapshot` immediately after a first one (within the
cache validity window, with no filesystem change) computes the empty
diff and writes only the `snapshot` record — no `workspace_diff`. -/
theorem snapshot_idempotent_spec (st : SessionState)
    (h : SnapshotHandlerState) (now1 now2 : Int)
    (scan1 scan2 : WorkspaceStats) (ws1 : WorkspaceStats) (t1 : Int)
    (hl : st.isLogging = true)
    (hc : ((takeSnapshot st now1 scan1 h).1).statsCache =
        some { stats := ws1, timestamp := t1 })
    (hfresh : now2 - t1 < h.cacheValidityMs)
    (hnd : (ws1.fileMap.map Prod.fst).Nodup) :
    computeDiff ((takeSnapshot st now1 scan1 h).1).previousWorkspaceFiles
        ws1.fileMap = emptyDiff
    ∧ (takeSnapshot st now2 scan2 ((takeSnapshot st now1 scan1 h).1)).2 =
        [mkSnapshotEvent now2 st ws1]
    ∧ (∀ r ∈ (takeSnapshot st now2 scan2 ((takeSnapshot st now1 scan1 h).1)).2,
        r.event ≠ EventKind.workspace_diff) := by
  have hEq1 := takeSnapshot_logging_eq st now1 scan1 h hl
  have hcache1 :
      (collectWorkspaceStatsWithFileMap now1 scan1 h).2.statsCache =
        some { stats := ws1, timestamp := t1 } := by
    rw [hEq1] at hc
    exact hc
  have hstats1 := collect_cache_stats now1 scan1 h _ hcache1
  have hprev :
      ((takeSnapshot st now1 scan1 h).1).previousWorkspaceFiles =
        ws1.fileMap := by
    rw [hEq1]
    dsimp only
    rw [hstats1]
  have hcacheTop :
      ((takeSnapshot st now1 scan1 h).1).statsCache =
        some { stats := ws1, timestamp := t1 } := hc
  have hval : ((takeSnapshot st now1 scan1 h).1).cacheValidityMs =
      h.cacheValidityMs := by
    rw [hEq1]
    dsimp only
    exact collect_validity now1 scan1 h
  have hhit := collect_hit now2 scan2 ((takeSnapshot st now1 scan1 h).1)
      { stats := ws1, timestamp := t1 } hcacheTop (by rw [hval]; exact hfresh)
  have hsecond :
      (takeSnapshot st now2 scan2 ((takeSnapshot st now1 scan1 h).1)).2 =
        [mkSnapshotEvent now2 st ws1] := by
    rw [takeSnapshot_logging_eq st now2 scan2 _ hl, hhit]
    dsimp only
    rw [hprev, emitWorkspaceDiff_self ws1.fileMap hnd]
    simp
  refine ⟨?_, hsecond, ?_⟩
  · rw [hprev]
    exact computeDiff_self ws1.fileMap hnd
  · rw [hsecond]
    intro r hr
    rcases List.mem_singleton.mp hr with rfl
    simp [mkSnapshotEvent]

/-- C9 witness: the theorem applied to a concrete handler whose first
snapshot populated the cache at time 7 and whose second call happens at
time 9, inside the 5 s window. -/
theorem snapshot_idempotent_spec_witness :
    let st : SessionState :=
      { sessionId := "S_s", workspaceId := "W_s", isLogging := true
        isPaused := false, logFilePath := "s.jsonl", startTime := 0
        totalPausedMs := 0, lastPauseTime := none
        controlMode := ControlMode.human }
    let m : List (String × SingleFileStats) := [("A", { loc := 10, bytes := 100 })]
    let ws1 : WorkspaceStats := { files := 1, loc := 10, bytes := 100, fileMap := m }
    let h : SnapshotHandlerState :=
      { statsCache := none, cacheValidityMs := 5000
        previousWorkspaceFiles := [] }
    computeDiff ((takeSnapshot st 7 ws1 h).1).previousWorkspaceFiles
        ws1.fileMap = emptyDiff
    ∧ (takeSnapshot st 9 ws1 ((takeSnapshot st 7 ws1 h).1)).2 =
        [mkSnapshotEvent 9 st ws1]
    ∧ (∀ r ∈ (takeSnapshot st 9 ws1 ((takeSnapshot st 7 ws1 h).1)).2,
        r.event ≠ EventKind.workspace_diff) :=
  snapshot_idempotent_spec _ _ 7 9 _ _ _ 7 rfl rfl (by decide) (by decide)

end CraftLog
